import Mathlib

/-!
Shallow embedding of the terminal emulation engine of the Somnium
repository (`src/plugins/terminal/mod.rs`).

The embedding models the pure core that the claims are about:
the `Cell`/grid data model, `TerminalState` with its operations
(`scroll_up`, `resize`), the `Perform` implementation on `LogHandler`
(`print`, `execute`, `csi_dispatch`) and the keyboard input encoder.

Machine integers (`usize`, `u16`, `u8`) are modelled as `Nat`; a cast
`as u8` becomes `% 256`, and `usize::saturating_sub`/underflow-free
subtractions map to truncated `Nat` subtraction.  Fallible code paths
(Rust `Vec` indexing and `Vec::remove`, slice ranges — all of which
panic when out of bounds) are modelled with `Option`: `none` is a panic.
The `vte` parser itself is an external crate; its callbacks into the
repository's `Perform` implementation are modelled as `Action`s, with
CSI parameter groups as `List Nat` (vte delivers non-empty groups, and
an absent parameter is `0`, hence the `headD 0` reads).
-/

namespace Somnium

/-- RGBA color, modelling `egui::Color32`.  `from_rgb` is opaque
(alpha 255); `TRANSPARENT` is all zeros, so the two are distinguishable. -/
structure Color32 where
  r : Nat
  g : Nat
  b : Nat
  a : Nat
deriving DecidableEq, Repr

def Color32.fromRgb (r g b : Nat) : Color32 :=
  ⟨r, g, b, 255⟩

def Color32.TRANSPARENT : Color32 :=
  ⟨0, 0, 0, 0⟩

def TERM_BG : Color32 := Color32.fromRgb 10 10 10

def TERM_FG : Color32 := Color32.fromRgb 220 220 220

/-- One grid position, modelling the Rust `Cell` struct. -/
structure Cell where
  c : Char
  fg : Color32
  bg : Color32
  inverse : Bool
  is_wide_continuation : Bool
deriving DecidableEq, Repr

/-- `Cell::default()`: space, default foreground, transparent background. -/
def Cell.default : Cell :=
  ⟨' ', TERM_FG, Color32.TRANSPARENT, false, false⟩

/-- The 16-color palette, modelling `ansi_color`.  The Rust argument is a
`u8`; call sites below reduce modulo 256 exactly where Rust casts. -/
def ansi_color (code : Nat) : Color32 :=
  match code with
  | 0 => Color32.fromRgb 0 0 0
  | 1 => Color32.fromRgb 205 0 0
  | 2 => Color32.fromRgb 0 205 0
  | 3 => Color32.fromRgb 205 205 0
  | 4 => Color32.fromRgb 0 0 238
  | 5 => Color32.fromRgb 205 0 205
  | 6 => Color32.fromRgb 0 205 205
  | 7 => Color32.fromRgb 229 229 229
  | 8 => Color32.fromRgb 127 127 127
  | 9 => Color32.fromRgb 255 0 0
  | 10 => Color32.fromRgb 0 255 0
  | 11 => Color32.fromRgb 255 255 0
  | 12 => Color32.fromRgb 92 92 255
  | 13 => Color32.fromRgb 255 0 255
  | 14 => Color32.fromRgb 0 255 255
  | 15 => Color32.fromRgb 255 255 255
  | _ => TERM_FG

/-- The screen-buffer state, modelling the Rust `TerminalState` struct
(the PTY handles live outside this pure core). -/
structure TerminalState where
  rows : Nat
  cols : Nat
  cursor_row : Nat
  cursor_col : Nat
  saved_cursor : Nat × Nat
  primary_grid : List (List Cell)
  alt_grid : List (List Cell)
  history : List (List Cell)
  is_alt_screen : Bool
  current_fg : Color32
  current_bg : Color32
  current_inverse : Bool
  cursor_visible : Bool
  application_cursor : Bool
deriving DecidableEq, Repr

namespace TerminalState

/-- `TerminalState::new(rows, cols)`. -/
def new (rows cols : Nat) : TerminalState where
  rows := rows
  cols := cols
  cursor_row := 0
  cursor_col := 0
  saved_cursor := (0, 0)
  primary_grid := List.replicate rows (List.replicate cols Cell.default)
  alt_grid := List.replicate rows (List.replicate cols Cell.default)
  history := []
  is_alt_screen := false
  current_fg := TERM_FG
  current_bg := Color32.TRANSPARENT
  current_inverse := false
  cursor_visible := true
  application_cursor := false

/-- `TerminalState::grid()`: the active grid. -/
def grid (s : TerminalState) : List (List Cell) :=
  if s.is_alt_screen then s.alt_grid else s.primary_grid

/-- Writing through `TerminalState::grid_mut()`: replace the active grid. -/
def setGrid (s : TerminalState) (g : List (List Cell)) : TerminalState :=
  if s.is_alt_screen then { s with alt_grid := g } else { s with primary_grid := g }

/-- `TerminalState::scroll_up()`.  `Vec::remove(0)` on an empty grid is a
panic, hence the `none` branch; `history.remove(0)` after a push always
acts on a non-empty vector and is `tail`. -/
def scroll_up (s : TerminalState) : Option TerminalState :=
  match s.grid with
  | [] => none
  | top_row :: rest =>
    let s1 := s.setGrid rest
    let s2 :=
      if s1.is_alt_screen then s1
      else
        let hist := s1.history ++ [top_row]
        { s1 with history := if 5000 < hist.length then hist.tail else hist }
    let s3 := s2.setGrid
      (s2.grid ++ [List.replicate s.cols
        ⟨' ', s.current_fg, s.current_bg, s.current_inverse, false⟩])
    some (if 0 < s3.cursor_row then { s3 with cursor_row := s3.cursor_row - 1 } else s3)

/-- The inner `resize_grid` helper of `TerminalState::resize`:
pad/truncate the row count, then pad/truncate every row to `c` cells. -/
def resize_grid (grid : List (List Cell)) (r c : Nat) : List (List Cell) :=
  let g :=
    if grid.length < r then
      grid ++ List.replicate (r - grid.length) (List.replicate c Cell.default)
    else grid.take r
  g.map fun row =>
    if row.length < c then row ++ List.replicate (c - row.length) Cell.default
    else row.take c

/-- `TerminalState::resize(new_rows, new_cols)`. -/
def resize (s : TerminalState) (new_rows new_cols : Nat) : TerminalState :=
  if new_rows = 0 ∨ new_cols = 0 then s
  else
    { s with
      primary_grid := resize_grid s.primary_grid new_rows new_cols
      alt_grid := resize_grid s.alt_grid new_rows new_cols
      rows := new_rows
      cols := new_cols
      cursor_row := min s.cursor_row (new_rows - 1)
      cursor_col := min s.cursor_col (new_cols - 1) }

end TerminalState

/-- First entry of a vte parameter group (`param[0]`).  vte delivers
non-empty groups and turns an absent parameter into `0`. -/
def p0 (p : List Nat) : Nat := p.headD 0

/-- The running SGR attribute triple. -/
structure Attrs where
  fg : Color32
  bg : Color32
  inverse : Bool
deriving DecidableEq, Repr

/-- The parameter loop of the CSI `m` (SGR) arm of `csi_dispatch`,
iterating the parameter groups left to right; `38`/`48` consume further
groups from the same iterator exactly as the Rust `it.next()` calls do. -/
def sgr_params : List (List Nat) → Attrs → Attrs
  | [], a => a
  | p :: rest, a =>
    let n := p0 p
    if n = 0 then sgr_params rest ⟨TERM_FG, Color32.TRANSPARENT, false⟩
    else if n = 7 then sgr_params rest { a with inverse := true }
    else if n = 27 then sgr_params rest { a with inverse := false }
    else if 30 ≤ n ∧ n ≤ 37 then sgr_params rest { a with fg := ansi_color (n - 30) }
    else if n = 38 then
      match rest with
      | [] => a
      | q :: rest1 =>
        if p0 q = 5 then
          match rest1 with
          | [] => a
          | pal :: rest2 => sgr_params rest2 { a with fg := ansi_color (p0 pal % 256) }
        else if p0 q = 2 then
          let rv := ((rest1.get? 0).map fun x => p0 x % 256).getD 0
          let gv := ((rest1.get? 1).map fun x => p0 x % 256).getD 0
          let bv := ((rest1.get? 2).map fun x => p0 x % 256).getD 0
          sgr_params (rest1.drop 3) { a with fg := Color32.fromRgb rv gv bv }
        else sgr_params rest1 a
    else if n = 39 then sgr_params rest { a with fg := TERM_FG }
    else if 40 ≤ n ∧ n ≤ 47 then sgr_params rest { a with bg := ansi_color (n - 40) }
    else if n = 48 then
      match rest with
      | [] => a
      | q :: rest1 =>
        if p0 q = 5 then
          match rest1 with
          | [] => a
          | pal :: rest2 => sgr_params rest2 { a with bg := ansi_color (p0 pal % 256) }
        else if p0 q = 2 then
          let rv := ((rest1.get? 0).map fun x => p0 x % 256).getD 0
          let gv := ((rest1.get? 1).map fun x => p0 x % 256).getD 0
          let bv := ((rest1.get? 2).map fun x => p0 x % 256).getD 0
          sgr_params (rest1.drop 3) { a with bg := Color32.fromRgb rv gv bv }
        else sgr_params rest1 a
    else if n = 49 then sgr_params rest { a with bg := Color32.TRANSPARENT }
    else if 90 ≤ n ∧ n ≤ 97 then sgr_params rest { a with fg := ansi_color (n - 90 + 8) }
    else if 100 ≤ n ∧ n ≤ 107 then sgr_params rest { a with bg := ansi_color (n - 100 + 8) }
    else sgr_params rest a
termination_by l _ => l.length
decreasing_by
  all_goals simp_all [List.length_drop]
  all_goals omega

namespace LogHandler

open TerminalState

/-- The wrap phase of `Perform::print`: if the glyph does not fit on the
current row, move to column 0 of the next row. -/
def print_wrap (width : Nat) (s : TerminalState) : TerminalState :=
  if s.cols < s.cursor_col + width then
    { s with cursor_col := 0, cursor_row := s.cursor_row + 1 }
  else s

/-- The scroll phase of `Perform::print` (also of linefeed): scroll when
the cursor row has moved past the last row. -/
def print_scroll (s : TerminalState) : Option TerminalState :=
  if s.rows ≤ s.cursor_row then s.scroll_up else some s

/-- The write phase of `Perform::print`.  Rust indexes `grid[row][col]`
(and `grid[row][col+1]` for the continuation cell); an out-of-bounds
index is a panic, modelled by `none`. -/
def print_write (ch : Char) (is_wide : Bool) (s2 : TerminalState) : Option TerminalState :=
  if s2.cursor_row < s2.rows then
    let row := s2.cursor_row
    let col := s2.cursor_col
    let cols_limit := s2.cols
    match s2.grid.get? row with
    | none => none
    | some line =>
      if col < line.length then
        let line1 := line.set col
          ⟨ch, s2.current_fg, s2.current_bg, s2.current_inverse, false⟩
        if is_wide && decide (col + 1 < cols_limit) then
          if col + 1 < line1.length then
            some { s2.setGrid (s2.grid.set row (line1.set (col + 1)
                     ⟨' ', s2.current_fg, s2.current_bg, s2.current_inverse, true⟩))
                   with cursor_col := col + 2 }
          else none
        else
          some { s2.setGrid (s2.grid.set row line1) with cursor_col := col + 1 }
      else none
  else some s2

/-- The `is_wide` classification of `Perform::print`: code point above
`0x7f`. -/
def is_wide_char (ch : Char) : Bool :=
  decide (0x7f < ch.toNat)

/-- The `width` local of `Perform::print`. -/
def char_width (ch : Char) : Nat :=
  if is_wide_char ch then 2 else 1

/-- `Perform::print` for `LogHandler`: width classification, wrap,
scroll, then write. -/
def print (ch : Char) (s0 : TerminalState) : Option TerminalState :=
  (print_scroll (print_wrap (char_width ch) s0)).bind (print_write ch (is_wide_char ch))

/-- `Perform::execute` for `LogHandler` (C0 control bytes).  The tab arm
computes `cols - 1`; all theorems below assume `1 ≤ cols`, where `Nat`
truncated subtraction agrees with `usize` arithmetic. -/
def execute (byte : Nat) (s : TerminalState) : Option TerminalState :=
  if byte = 13 then some { s with cursor_col := 0 }
  else if byte = 10 then
    print_scroll { s with cursor_row := s.cursor_row + 1 }
  else if byte = 8 then
    some (if 0 < s.cursor_col then { s with cursor_col := s.cursor_col - 1 } else s)
  else if byte = 9 then
    let next_tab := (s.cursor_col / 8 + 1) * 8
    some { s with cursor_col := min next_tab (s.cols - 1) }
  else some s

/-- The CSI `H`/`f` arm: absolute cursor position, 1-based parameters. -/
def csi_cup (params : List (List Nat)) (s : TerminalState) : TerminalState :=
  let row := ((params.get? 0).map fun p => p0 p - 1).getD 0
  let col := ((params.get? 1).map fun p => p0 p - 1).getD 0
  { s with cursor_row := min row (s.rows - 1), cursor_col := min col (s.cols - 1) }

/-- The CSI `J` arm: erase in display (only the full clear `2`). -/
def csi_ed (params : List (List Nat)) (s : TerminalState) : TerminalState :=
  if ((params.get? 0).map p0).getD 0 = 2 then
    { s.setGrid (List.replicate s.rows (List.replicate s.cols Cell.default)) with
      cursor_row := 0, cursor_col := 0 }
  else s

/-- The CSI `K` arm: erase from the cursor to end of line.  Rust guards
`row < rows` but still indexes `grid[row]` and slices `[col..]`, both of
which panic when out of range of the actual vectors. -/
def csi_el (s : TerminalState) : Option TerminalState :=
  let row := s.cursor_row
  if row < s.rows then
    let col := s.cursor_col
    match s.grid.get? row with
    | none => none
    | some line =>
      if col ≤ line.length then
        some (s.setGrid (s.grid.set row
          (line.take col ++ List.replicate (line.length - col) Cell.default)))
      else none
  else some s

/-- The CSI `X` arm (ECH).  Rust indexes `grid[row]` with no `row < rows`
guard and slices `[col..limit]`; both panic when out of bounds. -/
def csi_ech (params : List (List Nat)) (s : TerminalState) : Option TerminalState :=
  let num := ((params.get? 0).map p0).getD 1
  let row := s.cursor_row
  let col := s.cursor_col
  let limit := min (col + num) s.cols
  match s.grid.get? row with
  | none => none
  | some line =>
    if col ≤ limit ∧ limit ≤ line.length then
      some (s.setGrid (s.grid.set row
        (line.take col ++ List.replicate (limit - col) Cell.default ++ line.drop limit)))
    else none

/-- One pass of the CSI `P` (DCH) loop body, applied `num` times:
remove the cell at `col` and pad the tail with a default cell. -/
def dch_loop : Nat → Nat → List Cell → List Cell
  | 0, _, line => line
  | n + 1, col, line =>
    if col < line.length then dch_loop n col (line.eraseIdx col ++ [Cell.default])
    else dch_loop n col line

/-- The CSI `P` arm (DCH).  Rust guards `row < rows && col < cols` and
then indexes `grid[row]`, which panics if the grid is shorter. -/
def csi_dch (params : List (List Nat)) (s : TerminalState) : Option TerminalState :=
  let num := ((params.get? 0).map p0).getD 1
  let row := s.cursor_row
  let col := s.cursor_col
  if row < s.rows ∧ col < s.cols then
    match s.grid.get? row with
    | none => none
    | some line => some (s.setGrid (s.grid.set row (dch_loop num col line)))
  else some s

/-- One private-mode-set parameter of the CSI `? ... h` arm. -/
def mode_set (s : TerminalState) (p : List Nat) : TerminalState :=
  if p0 p = 25 then { s with cursor_visible := true }
  else if p0 p = 1 then { s with application_cursor := true }
  else if p0 p = 1049 then
    { s with
      saved_cursor := (s.cursor_row, s.cursor_col)
      is_alt_screen := true
      alt_grid := List.replicate s.rows (List.replicate s.cols Cell.default)
      cursor_row := 0
      cursor_col := 0 }
  else s

/-- One private-mode-reset parameter of the CSI `? ... l` arm. -/
def mode_reset (s : TerminalState) (p : List Nat) : TerminalState :=
  if p0 p = 25 then { s with cursor_visible := false }
  else if p0 p = 1 then { s with application_cursor := false }
  else if p0 p = 1049 then
    { s with
      is_alt_screen := false
      cursor_row := s.saved_cursor.1
      cursor_col := s.saved_cursor.2 }
  else s

/-- `Perform::csi_dispatch` for `LogHandler`.  Any final letter not
matched (and `h`/`l` without the `?` intermediate) falls to the `_`
arm, leaving the state unchanged. -/
def csi_dispatch (params : List (List Nat)) (intermediates : List Nat) (c : Char)
    (s : TerminalState) : Option TerminalState :=
  match c with
  | 'm' =>
    let a := sgr_params params ⟨s.current_fg, s.current_bg, s.current_inverse⟩
    some { s with current_fg := a.fg, current_bg := a.bg, current_inverse := a.inverse }
  | 'H' => some (csi_cup params s)
  | 'f' => some (csi_cup params s)
  | 'G' =>
    let col := ((params.get? 0).map fun p => p0 p - 1).getD 0
    some { s with cursor_col := min col (s.cols - 1) }
  | 'd' =>
    let row := ((params.get? 0).map fun p => p0 p - 1).getD 0
    some { s with cursor_row := min row (s.rows - 1) }
  | 'J' => some (csi_ed params s)
  | 'K' => csi_el s
  | 'X' => csi_ech params s
  | 'P' => csi_dch params s
  | 'h' => if intermediates = [0x3f] then some (params.foldl mode_set s) else some s
  | 'l' => if intermediates = [0x3f] then some (params.foldl mode_reset s) else some s
  | 'A' =>
    let n := ((params.get? 0).map p0).getD 1
    some { s with cursor_row := s.cursor_row - n }
  | 'B' =>
    let n := ((params.get? 0).map p0).getD 1
    some { s with cursor_row := min (s.cursor_row + n) (s.rows - 1) }
  | 'C' =>
    let n := ((params.get? 0).map p0).getD 1
    some { s with cursor_col := min (s.cursor_col + n) (s.cols - 1) }
  | 'D' =>
    let n := ((params.get? 0).map p0).getD 1
    some { s with cursor_col := s.cursor_col - n }
  | _ => some s

end LogHandler

/-- One callback of the `vte` parser into the repository's `Perform`
implementation.  `other` stands for `hook`/`put`/`unhook`/`osc_dispatch`/
`esc_dispatch`, all of which have empty bodies in the source. -/
inductive Action where
  | print (c : Char)
  | execute (b : Nat)
  | csi (params : List (List Nat)) (intermediates : List Nat) (c : Char)
  | other
deriving DecidableEq, Repr

/-- Apply one parser callback to the terminal state; `none` is a panic. -/
def step (a : Action) (s : TerminalState) : Option TerminalState :=
  match a with
  | .print c => LogHandler.print c s
  | .execute b => LogHandler.execute b s
  | .csi p i c => LogHandler.csi_dispatch p i c s
  | .other => some s

/-- Apply a sequence of parser callbacks left to right. -/
def steps (l : List Action) (s : TerminalState) : Option TerminalState :=
  match l with
  | [] => some s
  | a :: rest => (step a s).bind (steps rest)

/-- The keys distinguished by the input-encoder `match` in
`TerminalTab::ui`; `other` stands for every other `egui::Key`. -/
inductive Key where
  | enter
  | backspace
  | arrowUp
  | arrowDown
  | arrowRight
  | arrowLeft
  | tab
  | escape
  | c
  | d
  | l
  | z
  | other
deriving DecidableEq, Repr

/-- The keyboard input encoder of `TerminalTab::ui`: maps a key press,
the control-modifier flag and the application-cursor-key mode to the
byte sequence written to the PTY (`none` writes nothing). -/
def encode_key (key : Key) (ctrl : Bool) (app_mode : Bool) : Option (List Nat) :=
  match key with
  | .enter => some [0x0d]
  | .backspace => if ctrl then some [0x17] else some [0x7f]
  | .arrowUp => if app_mode then some [0x1b, 0x4f, 0x41] else some [0x1b, 0x5b, 0x41]
  | .arrowDown => if app_mode then some [0x1b, 0x4f, 0x42] else some [0x1b, 0x5b, 0x42]
  | .arrowRight => if app_mode then some [0x1b, 0x4f, 0x43] else some [0x1b, 0x5b, 0x43]
  | .arrowLeft => if app_mode then some [0x1b, 0x4f, 0x44] else some [0x1b, 0x5b, 0x44]
  | .tab => some [0x09]
  | .escape => some [0x1b]
  | .c => if ctrl then some [0x03] else none
  | .d => if ctrl then some [0x04] else none
  | .l => if ctrl then some [0x0c] else none
  | .z => if ctrl then some [0x1a] else none
  | .other => none

/-!  Invariants and helper lemmas. -/

/-- A grid is rectangular with `r` rows of `c` cells each. -/
def rect (g : List (List Cell)) (r c : Nat) : Prop :=
  g.length = r ∧ ∀ row ∈ g, row.length = c

/-- Well-formed terminal states: positive dimensions, both grids
rectangular, cursor and saved cursor within bounds.  The column bound is
`≤ cols` (not `< cols`): printing in the last column legitimately parks
the cursor at column `cols` until the next wrap. -/
def WF (s : TerminalState) : Prop :=
  0 < s.rows ∧ 0 < s.cols ∧
  rect s.primary_grid s.rows s.cols ∧
  rect s.alt_grid s.rows s.cols ∧
  s.cursor_row < s.rows ∧ s.cursor_col ≤ s.cols ∧
  s.saved_cursor.1 < s.rows ∧ s.saved_cursor.2 ≤ s.cols

instance (g : List (List Cell)) (r c : Nat) : Decidable (rect g r c) := by
  unfold rect; infer_instance

instance (s : TerminalState) : Decidable (WF s) := by
  unfold WF; infer_instance

/-- Scrollback push with the 5000-row cap: append, then drop the front
when the length exceeds the cap. -/
def push_capped (h : List (List Cell)) (row : List Cell) : List (List Cell) :=
  let h1 := h ++ [row]
  if 5000 < h1.length then h1.tail else h1

/-- The blank row `scroll_up` pushes at the bottom: `cols` cells carrying
the current attribute state. -/
def blank_row (s : TerminalState) : List Cell :=
  List.replicate s.cols ⟨' ', s.current_fg, s.current_bg, s.current_inverse, false⟩

/-!  Concrete states used by counterexamples and witnesses. -/

/-- A 1×1 terminal whose current attribute state has inverse video on. -/
def exInverse : TerminalState :=
  { TerminalState.new 1 1 with current_inverse := true }

/-- The state `scroll_up` produces from `exInverse`: the pushed bottom
row carries the current (inverse) attributes, not the defaults. -/
def exInverseAfter : TerminalState :=
  { exInverse with
    primary_grid := [[⟨' ', TERM_FG, Color32.TRANSPARENT, true, false⟩]]
    history := [[Cell.default]] }

/-- A fresh 1×1 terminal. -/
def exOne : TerminalState := TerminalState.new 1 1

/-- The state printing `a` produces from `exOne`: the cursor column ends
at `cols`, one past the last column index. -/
def exOneAfterA : TerminalState :=
  { exOne with
    primary_grid := [[⟨'a', TERM_FG, Color32.TRANSPARENT, false, false⟩]]
    cursor_col := 1 }

/-- A 1×1 terminal whose scrollback already holds 5000 rows. -/
def exHist5000 : TerminalState :=
  { TerminalState.new 1 1 with history := List.replicate 5000 [Cell.default] }

/-- A 1×1 terminal in alt-screen mode with one scrollback row and a
non-blank alternate grid. -/
def exAlt : TerminalState :=
  { TerminalState.new 1 1 with
    is_alt_screen := true
    history := [[Cell.default]]
    alt_grid := [[⟨'q', TERM_FG, Color32.TRANSPARENT, false, false⟩]] }

/-- The state a linefeed produces from `exAlt`: the alternate grid
scrolled, the scrollback untouched. -/
def exAltAfter : TerminalState :=
  { exAlt with alt_grid := [[Cell.default]] }

/-- A fresh 1×4 terminal, roomy enough for narrow and wide prints. -/
def exRow : TerminalState := TerminalState.new 1 4

theorem rect_replicate (r c : Nat) :
    rect (List.replicate r (List.replicate c Cell.default)) r c := by
  refine ⟨List.length_replicate _ _, ?_⟩
  intro row hrow
  rw [List.eq_of_mem_replicate hrow]
  exact List.length_replicate _ _

theorem rect_set {g : List (List Cell)} {r c : Nat} {i : Nat} {line : List Cell}
    (hg : rect g r c) (hl : line.length = c) : rect (g.set i line) r c := by
  refine ⟨by simpa using hg.1, ?_⟩
  intro row hrow
  rcases List.mem_or_eq_of_mem_set hrow with h | h
  · exact hg.2 row h
  · rw [h]; exact hl

theorem rect_get {g : List (List Cell)} {r c : Nat} {i : Nat}
    (hg : rect g r c) (hi : i < r) :
    ∃ line, g.get? i = some line ∧ line.length = c := by
  have hlen : i < g.length := hg.1 ▸ hi
  rcases List.get?_eq_get hlen with h
  exact ⟨g.get ⟨i, hlen⟩, h, hg.2 _ (List.get_mem g _ _)⟩

theorem rect_ne_nil {g : List (List Cell)} {r c : Nat}
    (hg : rect g r c) (hr : 0 < r) : g ≠ [] := by
  intro h
  rw [h] at hg
  simp [rect] at hg
  omega

namespace TerminalState

@[simp] theorem setGrid_rows (s : TerminalState) (g : List (List Cell)) :
    (s.setGrid g).rows = s.rows := by
  unfold setGrid; split <;> rfl

@[simp] theorem setGrid_cols (s : TerminalState) (g : List (List Cell)) :
    (s.setGrid g).cols = s.cols := by
  unfold setGrid; split <;> rfl

@[simp] theorem setGrid_cursor_row (s : TerminalState) (g : List (List Cell)) :
    (s.setGrid g).cursor_row = s.cursor_row := by
  unfold setGrid; split <;> rfl

@[simp] theorem setGrid_cursor_col (s : TerminalState) (g : List (List Cell)) :
    (s.setGrid g).cursor_col = s.cursor_col := by
  unfold setGrid; split <;> rfl

@[simp] theorem setGrid_saved_cursor (s : TerminalState) (g : List (List Cell)) :
    (s.setGrid g).saved_cursor = s.saved_cursor := by
  unfold setGrid; split <;> rfl

@[simp] theorem setGrid_history (s : TerminalState) (g : List (List Cell)) :
    (s.setGrid g).history = s.history := by
  unfold setGrid; split <;> rfl

@[simp] theorem setGrid_is_alt_screen (s : TerminalState) (g : List (List Cell)) :
    (s.setGrid g).is_alt_screen = s.is_alt_screen := by
  unfold setGrid; split <;> rfl

@[simp] theorem setGrid_grid (s : TerminalState) (g : List (List Cell)) :
    (s.setGrid g).grid = g := by
  unfold setGrid grid
  by_cases h : s.is_alt_screen <;> simp [h]

/-- Full behavioral characterization of `scroll_up` on a non-empty active
grid: the top row of the active grid moves (capped) into the history when
the primary grid is active, a blank row carrying the current attributes is
appended at the bottom, the inactive grid is untouched, and the cursor row
drops by one (saturating at zero). -/
theorem scroll_up_chr (s : TerminalState) (hg : s.grid ≠ []) :
    s.scroll_up = some
      { s with
        primary_grid :=
          if s.is_alt_screen then s.primary_grid else s.grid.tail ++ [blank_row s]
        alt_grid :=
          if s.is_alt_screen then s.grid.tail ++ [blank_row s] else s.alt_grid
        history :=
          if s.is_alt_screen then s.history
          else push_capped s.history (s.grid.headD [])
        cursor_row := s.cursor_row - 1 } := by
  obtain ⟨rows, cols, cr, cc, sv, pg, ag, hist, alt, fg, bg, inv, vis, app⟩ := s
  cases alt <;>
    simp only [grid, Bool.false_eq_true, if_false, if_true, ne_eq] at hg ⊢
  · cases pg with
    | nil => exact absurd rfl hg
    | cons top restg =>
      simp only [scroll_up, grid, setGrid, push_capped, blank_row]
      simp only [Bool.false_eq_true, if_false, List.tail_cons, List.headD_cons]
      by_cases hcr : 0 < cr <;> simp [hcr] <;> omega
  · cases ag with
    | nil => exact absurd rfl hg
    | cons top restg =>
      simp only [scroll_up, grid, setGrid, blank_row]
      simp only [if_true, List.tail_cons]
      by_cases hcr : 0 < cr <;> simp [hcr] <;> omega

/-- The active grid of a well-formed state is rectangular. -/
theorem grid_rect {s : TerminalState} (hw : WF s) : rect s.grid s.rows s.cols := by
  obtain ⟨h1, h2, hp, ha, _⟩ := hw
  unfold grid
  split
  · exact ha
  · exact hp

end TerminalState

theorem rect_scroll {g : List (List Cell)} {r c : Nat} (hg : rect g r c) (hr : 0 < r)
    {row : List Cell} (hrow : row.length = c) : rect (g.tail ++ [row]) r c := by
  obtain ⟨hl, hm⟩ := hg
  constructor
  · simp only [List.length_append, List.length_tail, List.length_singleton]
    omega
  · intro x hx
    rcases List.mem_append.mp hx with h | h
    · exact hm x (List.mem_of_mem_tail h)
    · simp only [List.mem_singleton] at h
      rw [h]; exact hrow

theorem wf_setGrid {s : TerminalState} {g : List (List Cell)}
    (hw : WF s) (hg : rect g s.rows s.cols) : WF (s.setGrid g) := by
  obtain ⟨h1, h2, h3, h4, h5, h6, h7, h8⟩ := hw
  unfold TerminalState.setGrid
  split
  · exact ⟨h1, h2, h3, hg, h5, h6, h7, h8⟩
  · exact ⟨h1, h2, hg, h4, h5, h6, h7, h8⟩

theorem wf_set_cursor {s : TerminalState} (hw : WF s) {r c : Nat}
    (hr : r < s.rows) (hc : c ≤ s.cols) :
    WF { s with cursor_row := r, cursor_col := c } := by
  obtain ⟨h1, h2, h3, h4, h5, h6, h7, h8⟩ := hw
  exact ⟨h1, h2, h3, h4, hr, hc, h7, h8⟩

/-- Totality and state bookkeeping for `scroll_up` from any state whose
cursor row is at most `rows` (the interpreter calls it exactly when the
cursor has just stepped to row `rows`). -/
theorem scroll_up_wf {s : TerminalState} (h1 : 0 < s.rows) (h2 : 0 < s.cols)
    (hp : rect s.primary_grid s.rows s.cols) (ha : rect s.alt_grid s.rows s.cols)
    (hcr : s.cursor_row ≤ s.rows) (hcc : s.cursor_col ≤ s.cols)
    (hs1 : s.saved_cursor.1 < s.rows) (hs2 : s.saved_cursor.2 ≤ s.cols) :
    ∃ s', s.scroll_up = some s' ∧ WF s' ∧
      s'.cursor_row = s.cursor_row - 1 ∧ s'.cursor_col = s.cursor_col ∧
      s'.rows = s.rows ∧ s'.cols = s.cols ∧
      s'.is_alt_screen = s.is_alt_screen ∧
      (s.is_alt_screen = true → s'.history = s.history) := by
  have hgrect : rect s.grid s.rows s.cols := by
    unfold TerminalState.grid
    split
    · exact ha
    · exact hp
  have hgne : s.grid ≠ [] := rect_ne_nil hgrect h1
  have hblank : (blank_row s).length = s.cols := List.length_replicate _ _
  refine ⟨_, s.scroll_up_chr hgne, ?_, rfl, rfl, rfl, rfl, rfl, ?_⟩
  · refine ⟨h1, h2, ?_, ?_, by simp; omega, hcc, hs1, hs2⟩
    · by_cases halt : s.is_alt_screen <;> simp only [halt, if_true, if_false]
      · exact hp
      · exact rect_scroll hgrect h1 hblank
    · by_cases halt : s.is_alt_screen <;> simp only [halt, if_true, if_false]
      · exact rect_scroll hgrect h1 hblank
      · exact ha
  · intro halt
    simp [halt]

/-- In alt-screen mode `scroll_up` never touches the history. -/
theorem scroll_up_history_alt {s s' : TerminalState}
    (halt : s.is_alt_screen = true) (h : s.scroll_up = some s') :
    s'.history = s.history := by
  by_cases hg : s.grid = []
  · unfold TerminalState.scroll_up at h
    rw [hg] at h
    exact absurd h (by simp)
  · rw [s.scroll_up_chr hg] at h
    injection h with h
    rw [← h]
    simp [halt]

theorem wf_set_col {s : TerminalState} (hw : WF s) {c : Nat} (hc : c ≤ s.cols) :
    WF { s with cursor_col := c } := by
  obtain ⟨h1, h2, h3, h4, h5, h6, h7, h8⟩ := hw
  exact ⟨h1, h2, h3, h4, h5, hc, h7, h8⟩

theorem wf_set_row {s : TerminalState} (hw : WF s) {r : Nat} (hr : r < s.rows) :
    WF { s with cursor_row := r } := by
  obtain ⟨h1, h2, h3, h4, h5, h6, h7, h8⟩ := hw
  exact ⟨h1, h2, h3, h4, hr, h6, h7, h8⟩

namespace LogHandler

theorem wf_csi_cup {s : TerminalState} (p : List (List Nat)) (hw : WF s) :
    WF (csi_cup p s) := by
  obtain ⟨h1, h2, h3, h4, h5, h6, h7, h8⟩ := hw
  exact ⟨h1, h2, h3, h4, by simp only [csi_cup]; omega, by simp only [csi_cup]; omega,
    h7, h8⟩

theorem wf_csi_ed {s : TerminalState} (p : List (List Nat)) (hw : WF s) :
    WF (csi_ed p s) := by
  unfold csi_ed
  split
  · have h0 := wf_setGrid hw (by simpa using rect_replicate s.rows s.cols)
    obtain ⟨h1, h2, h3, h4, h5, h6, h7, h8⟩ := h0
    exact ⟨h1, h2, h3, h4, by simpa using h1, by simp, h7, h8⟩
  · exact hw

theorem wf_csi_el {s : TerminalState} (hw : WF s) :
    ∃ s', csi_el s = some s' ∧ WF s' ∧ s'.history = s.history := by
  have hw' := hw
  obtain ⟨h1, h2, h3, h4, h5, h6, h7, h8⟩ := hw'
  unfold csi_el
  rw [if_pos h5]
  obtain ⟨line, hget, hlen⟩ := rect_get (TerminalState.grid_rect hw) h5
  rw [hget]
  simp only
  rw [if_pos (by omega)]
  refine ⟨_, rfl, ?_, by simp⟩
  refine wf_setGrid hw (rect_set (TerminalState.grid_rect hw) ?_)
  simp only [List.length_append, List.length_take, List.length_replicate]
  omega

theorem wf_csi_ech {s : TerminalState} (p : List (List Nat)) (hw : WF s) :
    ∃ s', csi_ech p s = some s' ∧ WF s' ∧ s'.history = s.history := by
  have hw' := hw
  obtain ⟨h1, h2, h3, h4, h5, h6, h7, h8⟩ := hw'
  unfold csi_ech
  obtain ⟨line, hget, hlen⟩ := rect_get (TerminalState.grid_rect hw) h5
  simp only [hget]
  rw [if_pos (by constructor <;> omega)]
  refine ⟨_, rfl, ?_, by simp⟩
  refine wf_setGrid hw (rect_set (TerminalState.grid_rect hw) ?_)
  simp only [List.length_append, List.length_take, List.length_replicate,
    List.length_drop]
  omega

theorem dch_loop_length (n col : Nat) (line : List Cell) :
    (dch_loop n col line).length = line.length := by
  induction n generalizing line with
  | zero => rfl
  | succ k ih =>
    unfold dch_loop
    split
    · rw [ih]
      simp only [List.length_append, List.length_singleton]
      rw [List.length_eraseIdx_of_lt (by assumption)]
      omega
    · exact ih line

theorem wf_csi_dch {s : TerminalState} (p : List (List Nat)) (hw : WF s) :
    ∃ s', csi_dch p s = some s' ∧ WF s' ∧ s'.history = s.history := by
  have hw' := hw
  obtain ⟨h1, h2, h3, h4, h5, h6, h7, h8⟩ := hw'
  by_cases hguard : s.cursor_row < s.rows ∧ s.cursor_col < s.cols
  · obtain ⟨line, hget, hlen⟩ := rect_get (TerminalState.grid_rect hw) h5
    unfold csi_dch
    simp only [hget, hguard, if_true]
    refine ⟨_, rfl, ?_, by simp⟩
    refine wf_setGrid hw (rect_set (TerminalState.grid_rect hw) ?_)
    rw [dch_loop_length]
    exact hlen
  · unfold csi_dch
    simp only [hguard, if_false]
    exact ⟨s, rfl, hw, rfl⟩

theorem wf_mode_set {s : TerminalState} (p : List Nat) (hw : WF s) :
    WF (mode_set s p) ∧ (mode_set s p).history = s.history := by
  have hw' := hw
  obtain ⟨h1, h2, h3, h4, h5, h6, h7, h8⟩ := hw'
  unfold mode_set
  split
  · exact ⟨⟨h1, h2, h3, h4, h5, h6, h7, h8⟩, rfl⟩
  · split
    · exact ⟨⟨h1, h2, h3, h4, h5, h6, h7, h8⟩, rfl⟩
    · split
      · exact ⟨⟨h1, h2, h3, rect_replicate _ _, h1, Nat.zero_le _, h5, h6⟩, rfl⟩
      · exact ⟨hw, rfl⟩

theorem wf_mode_reset {s : TerminalState} (p : List Nat) (hw : WF s) :
    WF (mode_reset s p) ∧ (mode_reset s p).history = s.history := by
  have hw' := hw
  obtain ⟨h1, h2, h3, h4, h5, h6, h7, h8⟩ := hw'
  unfold mode_reset
  split
  · exact ⟨⟨h1, h2, h3, h4, h5, h6, h7, h8⟩, rfl⟩
  · split
    · exact ⟨⟨h1, h2, h3, h4, h5, h6, h7, h8⟩, rfl⟩
    · split
      · exact ⟨⟨h1, h2, h3, h4, h7, h8, h7, h8⟩, rfl⟩
      · exact ⟨hw, rfl⟩

theorem wf_foldl_mode_set {s : TerminalState} (l : List (List Nat)) (hw : WF s) :
    WF (l.foldl mode_set s) ∧ (l.foldl mode_set s).history = s.history := by
  induction l generalizing s with
  | nil => exact ⟨hw, rfl⟩
  | cons p rest ih =>
    obtain ⟨hwf, hh⟩ := wf_mode_set p hw
    obtain ⟨hwf2, hh2⟩ := ih hwf
    exact ⟨hwf2, by rw [List.foldl_cons, hh2, hh]⟩

theorem wf_foldl_mode_reset {s : TerminalState} (l : List (List Nat)) (hw : WF s) :
    WF (l.foldl mode_reset s) ∧ (l.foldl mode_reset s).history = s.history := by
  induction l generalizing s with
  | nil => exact ⟨hw, rfl⟩
  | cons p rest ih =>
    obtain ⟨hwf, hh⟩ := wf_mode_reset p hw
    obtain ⟨hwf2, hh2⟩ := ih hwf
    exact ⟨hwf2, by rw [List.foldl_cons, hh2, hh]⟩

/-- `csi_dispatch` is total on well-formed states, preserves
well-formedness, and never touches the scrollback history. -/
theorem wf_csi_dispatch {s : TerminalState} (p : List (List Nat))
    (i : List Nat) (c : Char) (hw : WF s) :
    ∃ s', csi_dispatch p i c s = some s' ∧ WF s' ∧ s'.history = s.history := by
  have hw' := hw
  obtain ⟨h1, h2, h3, h4, h5, h6, h7, h8⟩ := hw'
  unfold csi_dispatch
  split
  · exact ⟨_, rfl, ⟨h1, h2, h3, h4, h5, h6, h7, h8⟩, rfl⟩
  · exact ⟨_, rfl, wf_csi_cup p hw, by simp [csi_cup]⟩
  · exact ⟨_, rfl, wf_csi_cup p hw, by simp [csi_cup]⟩
  · exact ⟨_, rfl, wf_set_col hw (by omega), rfl⟩
  · exact ⟨_, rfl, wf_set_row hw (by omega), rfl⟩
  · refine ⟨_, rfl, wf_csi_ed p hw, ?_⟩
    unfold csi_ed
    split <;> simp
  · exact wf_csi_el hw
  · exact wf_csi_ech p hw
  · exact wf_csi_dch p hw
  · split
    · obtain ⟨hwf, hh⟩ := wf_foldl_mode_set p hw
      exact ⟨_, rfl, hwf, hh⟩
    · exact ⟨s, rfl, hw, rfl⟩
  · split
    · obtain ⟨hwf, hh⟩ := wf_foldl_mode_reset p hw
      exact ⟨_, rfl, hwf, hh⟩
    · exact ⟨s, rfl, hw, rfl⟩
  · exact ⟨_, rfl, wf_set_row hw (by omega), rfl⟩
  · exact ⟨_, rfl, wf_set_row hw (by omega), rfl⟩
  · exact ⟨_, rfl, wf_set_col hw (by omega), rfl⟩
  · exact ⟨_, rfl, wf_set_col hw (by omega), rfl⟩
  · exact ⟨s, rfl, hw, rfl⟩

theorem char_width_pos (ch : Char) : 0 < char_width ch := by
  unfold char_width
  split <;> omega

/-- Totality and bookkeeping of the scroll phase from any state whose
cursor row is at most `rows`. -/
theorem print_scroll_wf {s : TerminalState} (h1 : 0 < s.rows) (h2 : 0 < s.cols)
    (hp : rect s.primary_grid s.rows s.cols) (ha : rect s.alt_grid s.rows s.cols)
    (hcr : s.cursor_row ≤ s.rows) (hcc : s.cursor_col ≤ s.cols)
    (hs1 : s.saved_cursor.1 < s.rows) (hs2 : s.saved_cursor.2 ≤ s.cols) :
    ∃ s', print_scroll s = some s' ∧ WF s' ∧
      s'.cursor_col = s.cursor_col ∧ s'.rows = s.rows ∧ s'.cols = s.cols ∧
      s'.is_alt_screen = s.is_alt_screen ∧
      (s.is_alt_screen = true → s'.history = s.history) := by
  unfold print_scroll
  by_cases hsc : s.rows ≤ s.cursor_row
  · rw [if_pos hsc]
    obtain ⟨s', h', hwf, _, hc, hr, hcl, halt, hh⟩ :=
      scroll_up_wf h1 h2 hp ha hcr hcc hs1 hs2
    exact ⟨s', h', hwf, hc, hr, hcl, halt, hh⟩
  · rw [if_neg hsc]
    exact ⟨s, rfl, ⟨h1, h2, hp, ha, by omega, hcc, hs1, hs2⟩, rfl, rfl, rfl, rfl,
      fun _ => rfl⟩

/-- Totality and bookkeeping of the write phase when the cursor column is
strictly inside the row (which the wrap phase guarantees). -/
theorem wf_print_write {s2 : TerminalState} (ch : Char) (w : Bool) (hw : WF s2)
    (hcol : s2.cursor_col < s2.cols) :
    ∃ s', print_write ch w s2 = some s' ∧ WF s' ∧ s'.history = s2.history := by
  have hw' := hw
  obtain ⟨h1, h2, h3, h4, h5, h6, h7, h8⟩ := hw'
  unfold print_write
  rw [if_pos h5]
  obtain ⟨line, hget, hlen⟩ := rect_get (TerminalState.grid_rect hw) h5
  simp only [hget]
  rw [if_pos (by omega)]
  by_cases hwide : (w && decide (s2.cursor_col + 1 < s2.cols)) = true
  · have hcl : s2.cursor_col + 1 < s2.cols := by
      simp only [Bool.and_eq_true, decide_eq_true_eq] at hwide
      exact hwide.2
    rw [if_pos hwide]
    rw [if_pos (by simp only [List.length_set]; omega)]
    refine ⟨_, rfl, ?_, by simp⟩
    refine wf_set_col (c := s2.cursor_col + 2)
      (wf_setGrid hw (rect_set (TerminalState.grid_rect hw) ?_)) (by simp; omega)
    simp only [List.length_set]
    exact hlen
  · rw [if_neg hwide]
    refine ⟨_, rfl, ?_, by simp⟩
    refine wf_set_col (c := s2.cursor_col + 1)
      (wf_setGrid hw (rect_set (TerminalState.grid_rect hw) ?_)) (by simp; omega)
    simp only [List.length_set]
    exact hlen

/-- `print` is total on well-formed states and preserves well-formedness;
in alt-screen mode it never touches the history. -/
theorem wf_print {s : TerminalState} (ch : Char) (hw : WF s) :
    ∃ s', print ch s = some s' ∧ WF s' ∧
      (s.is_alt_screen = true → s'.history = s.history) := by
  have hw' := hw
  obtain ⟨h1, h2, h3, h4, h5, h6, h7, h8⟩ := hw'
  unfold print print_wrap
  by_cases hwrap : s.cols < s.cursor_col + char_width ch
  · rw [if_pos hwrap]
    obtain ⟨s2, hs2, hwf2, hcc2, hrows2, hcols2, halt2, hh2⟩ :=
      print_scroll_wf (s := { s with cursor_col := 0, cursor_row := s.cursor_row + 1 })
        h1 h2 h3 h4 (by simp; omega) (Nat.zero_le _) h7 h8
    rw [hs2, Option.some_bind]
    obtain ⟨s', hs', hwf', hh'⟩ := wf_print_write ch (is_wide_char ch) hwf2
      (by rw [hcc2, hcols2]; simpa using h2)
    refine ⟨s', hs', hwf', fun halt => ?_⟩
    rw [hh', hh2 halt]
  · rw [if_neg hwrap]
    obtain ⟨s2, hs2, hwf2, hcc2, hrows2, hcols2, halt2, hh2⟩ :=
      print_scroll_wf h1 h2 h3 h4 (by omega) h6 h7 h8
    rw [hs2, Option.some_bind]
    have hcwp := char_width_pos ch
    obtain ⟨s', hs', hwf', hh'⟩ := wf_print_write ch (is_wide_char ch) hwf2
      (by rw [hcc2, hcols2]; omega)
    refine ⟨s', hs', hwf', fun halt => ?_⟩
    rw [hh', hh2 halt]

/-- `execute` is total on well-formed states and preserves
well-formedness; in alt-screen mode it never touches the history. -/
theorem wf_execute {s : TerminalState} (b : Nat) (hw : WF s) :
    ∃ s', execute b s = some s' ∧ WF s' ∧
      (s.is_alt_screen = true → s'.history = s.history) := by
  have hw' := hw
  obtain ⟨h1, h2, h3, h4, h5, h6, h7, h8⟩ := hw'
  unfold execute
  by_cases h13 : b = 13
  · rw [if_pos h13]
    exact ⟨_, rfl, ⟨h1, h2, h3, h4, h5, Nat.zero_le _, h7, h8⟩, fun _ => rfl⟩
  rw [if_neg h13]
  by_cases h10 : b = 10
  · rw [if_pos h10]
    obtain ⟨s', hs', hwf, hcc', hr', hc', halt', hh⟩ :=
      print_scroll_wf (s := { s with cursor_row := s.cursor_row + 1 })
        h1 h2 h3 h4 (by simp; omega) h6 h7 h8
    exact ⟨s', hs', hwf, hh⟩
  rw [if_neg h10]
  by_cases h8b : b = 8
  · rw [if_pos h8b]
    refine ⟨_, rfl, ?_, fun _ => by split <;> rfl⟩
    split
    · exact ⟨h1, h2, h3, h4, h5, by simp; omega, h7, h8⟩
    · exact hw
  rw [if_neg h8b]
  by_cases h9 : b = 9
  · rw [if_pos h9]
    refine ⟨_, rfl, ⟨h1, h2, h3, h4, h5, ?_, h7, h8⟩, fun _ => rfl⟩
    simp only
    omega
  rw [if_neg h9]
  exact ⟨s, rfl, hw, fun _ => rfl⟩

end LogHandler

/-- Every parser callback is total on well-formed states, preserves
well-formedness, and in alt-screen mode never touches the history. -/
theorem wf_step {s : TerminalState} (a : Action) (hw : WF s) :
    ∃ s', step a s = some s' ∧ WF s' ∧
      (s.is_alt_screen = true → s'.history = s.history) := by
  cases a with
  | print c => exact LogHandler.wf_print c hw
  | execute b => exact LogHandler.wf_execute b hw
  | csi p i c =>
    obtain ⟨s', h, hwf, hh⟩ := LogHandler.wf_csi_dispatch p i c hw
    exact ⟨s', h, hwf, fun _ => hh⟩
  | other => exact ⟨s, rfl, hw, fun _ => rfl⟩

namespace LogHandler

theorem print_scroll_history_alt {s s' : TerminalState}
    (halt : s.is_alt_screen = true) (h : print_scroll s = some s') :
    s'.history = s.history := by
  unfold print_scroll at h
  split at h
  · exact scroll_up_history_alt halt h
  · injection h with h
    rw [← h]

theorem print_write_history {s s' : TerminalState} {ch : Char} {w : Bool}
    (h : print_write ch w s = some s') : s'.history = s.history := by
  unfold print_write at h
  split at h
  · rcases hget : s.grid.get? s.cursor_row with _ | line
    · simp only [hget] at h
      exact absurd h (by simp)
    · simp only [hget] at h
      split at h
      · split at h
        · split at h
          · injection h with h
            rw [← h]
            simp
          · exact absurd h (by simp)
        · injection h with h
          rw [← h]
          simp
      · exact absurd h (by simp)
  · injection h with h
    rw [← h]

theorem print_history_alt {s s' : TerminalState} {ch : Char}
    (halt : s.is_alt_screen = true) (h : print ch s = some s') :
    s'.history = s.history := by
  unfold print at h
  rcases hmid : print_scroll (print_wrap (char_width ch) s) with _ | s2
  · rw [hmid] at h
    exact absurd h (by simp)
  · rw [hmid, Option.some_bind] at h
    have h1 : s2.history = s.history := by
      have : (print_wrap (char_width ch) s).is_alt_screen = true := by
        unfold print_wrap
        split <;> exact halt
      have h2 := print_scroll_history_alt this hmid
      rw [h2]
      unfold print_wrap
      split <;> rfl
    rw [print_write_history h, h1]

theorem execute_history_alt {s s' : TerminalState} {b : Nat}
    (halt : s.is_alt_screen = true) (h : execute b s = some s') :
    s'.history = s.history := by
  unfold execute at h
  split at h
  · injection h with h
    rw [← h]
  · split at h
    · have h1 : ({ s with cursor_row := s.cursor_row + 1 } :
          TerminalState).is_alt_screen = true := halt
      exact print_scroll_history_alt (s := { s with cursor_row := s.cursor_row + 1 }) h1 h
    · split at h
      · injection h with h
        rw [← h]
        split <;> rfl
      · split at h
        · injection h with h
          rw [← h]
        · injection h with h
          rw [← h]

theorem mode_set_history (s : TerminalState) (p : List Nat) :
    (mode_set s p).history = s.history := by
  unfold mode_set
  split
  · rfl
  · split
    · rfl
    · split
      · rfl
      · rfl

theorem mode_reset_history (s : TerminalState) (p : List Nat) :
    (mode_reset s p).history = s.history := by
  unfold mode_reset
  split
  · rfl
  · split
    · rfl
    · split
      · rfl
      · rfl

theorem foldl_mode_set_history (l : List (List Nat)) (s : TerminalState) :
    (l.foldl mode_set s).history = s.history := by
  induction l generalizing s with
  | nil => rfl
  | cons p rest ih => rw [List.foldl_cons, ih, mode_set_history]

theorem foldl_mode_reset_history (l : List (List Nat)) (s : TerminalState) :
    (l.foldl mode_reset s).history = s.history := by
  induction l generalizing s with
  | nil => rfl
  | cons p rest ih => rw [List.foldl_cons, ih, mode_reset_history]

theorem csi_el_history {s s' : TerminalState} (h : csi_el s = some s') :
    s'.history = s.history := by
  unfold csi_el at h
  by_cases hrow : s.cursor_row < s.rows
  · rcases hget : s.grid.get? s.cursor_row with _ | line
    · simp only [hrow, if_true, hget] at h
      exact absurd h (by simp)
    · simp only [hrow, if_true, hget] at h
      split at h
      · injection h with h
        rw [← h]
        simp
      · exact absurd h (by simp)
  · simp only [hrow, if_false] at h
    injection h with h
    rw [← h]

theorem csi_ech_history {s s' : TerminalState} {p : List (List Nat)}
    (h : csi_ech p s = some s') : s'.history = s.history := by
  unfold csi_ech at h
  rcases hget : s.grid.get? s.cursor_row with _ | line
  · simp only [hget] at h
    exact absurd h (by simp)
  · simp only [hget] at h
    split at h
    · injection h with h
      rw [← h]
      simp
    · exact absurd h (by simp)

theorem csi_dch_history {s s' : TerminalState} {p : List (List Nat)}
    (h : csi_dch p s = some s') : s'.history = s.history := by
  unfold csi_dch at h
  by_cases hguard : s.cursor_row < s.rows ∧ s.cursor_col < s.cols
  · rcases hget : s.grid.get? s.cursor_row with _ | line
    · simp only [hguard, if_true, hget] at h
      exact absurd h (by simp)
    · simp only [hguard, if_true, hget] at h
      injection h with h
      rw [← h]
      simp
  · simp only [hguard, if_false] at h
    injection h with h
    rw [← h]

/-- No CSI dispatch ever modifies the scrollback history. -/
theorem csi_dispatch_history {s s' : TerminalState} {p : List (List Nat)}
    {i : List Nat} {c : Char} (h : csi_dispatch p i c s = some s') :
    s'.history = s.history := by
  unfold csi_dispatch at h
  split at h
  · injection h with h
    rw [← h]
  · injection h with h
    rw [← h]
    simp [csi_cup]
  · injection h with h
    rw [← h]
    simp [csi_cup]
  · injection h with h
    rw [← h]
  · injection h with h
    rw [← h]
  · injection h with h
    rw [← h]
    unfold csi_ed
    split <;> simp
  · exact csi_el_history h
  · exact csi_ech_history h
  · exact csi_dch_history h
  · split at h <;> injection h with h <;> rw [← h]
    exact foldl_mode_set_history p s
  · split at h <;> injection h with h <;> rw [← h]
    exact foldl_mode_reset_history p s
  · injection h with h
    rw [← h]
  · injection h with h
    rw [← h]
  · injection h with h
    rw [← h]
  · injection h with h
    rw [← h]
  · injection h with h
    rw [← h]

end LogHandler

/-- Pushing onto a capped scrollback never exceeds the 5000-row cap. -/
theorem push_capped_length (h : List (List Cell)) (row : List Cell)
    (hl : h.length ≤ 5000) : (push_capped h row).length ≤ 5000 := by
  show (if 5000 < (h ++ [row]).length then (h ++ [row]).tail
    else h ++ [row]).length ≤ 5000
  split <;> rename_i hcond <;>
    simp only [List.length_tail, List.length_append, List.length_singleton]
      at hcond ⊢ <;> omega

/-- Pushing onto a full scrollback evicts exactly the front row. -/
theorem push_capped_full (h : List (List Cell)) (row : List Cell)
    (hl : h.length = 5000) : push_capped h row = h.tail ++ [row] := by
  show (if 5000 < (h ++ [row]).length then (h ++ [row]).tail else h ++ [row]) =
    h.tail ++ [row]
  rw [if_pos (by simp only [List.length_append, List.length_singleton]; omega)]
  refine List.tail_append_of_ne_nil ?_
  intro hh
  rw [hh] at hl
  simp at hl

/-- `resize_grid` in closed form: truncate-or-pad the row list to `r`
rows, then truncate-or-pad every row to `c` cells. -/
theorem resize_grid_eq (g : List (List Cell)) (r c : Nat) :
    TerminalState.resize_grid g r c =
      (g.take r ++ List.replicate (r - g.length)
        (List.replicate c Cell.default)).map
        fun row => row.take c ++ List.replicate (c - row.length) Cell.default := by
  have hrow : ∀ row : List Cell,
      (if row.length < c then row ++ List.replicate (c - row.length) Cell.default
       else row.take c) =
      row.take c ++ List.replicate (c - row.length) Cell.default := by
    intro row
    by_cases hlc : row.length < c
    · rw [if_pos hlc, List.take_of_length_le (by omega)]
    · rw [if_neg hlc, Nat.sub_eq_zero_of_le (by omega), List.replicate_zero,
        List.append_nil]
  unfold TerminalState.resize_grid
  by_cases hr : g.length < r
  · rw [if_pos hr, List.take_of_length_le (by omega)]
    exact List.map_eq_map_iff.mpr fun row _ => hrow row
  · rw [if_neg hr, Nat.sub_eq_zero_of_le (by omega), List.replicate_zero,
      List.append_nil]
    exact List.map_eq_map_iff.mpr fun row _ => hrow row

/-- `resize_grid` always yields a rectangular `r × c` grid. -/
theorem rect_resize_grid (g : List (List Cell)) (r c : Nat) :
    rect (TerminalState.resize_grid g r c) r c := by
  rw [resize_grid_eq]
  constructor
  · simp only [List.length_map, List.length_append, List.length_take,
      List.length_replicate]
    omega
  · intro row hrow
    simp only [List.mem_map] at hrow
    obtain ⟨x, _, hx⟩ := hrow
    rw [← hx]
    simp only [List.length_append, List.length_take, List.length_replicate]
    omega

/-!  The claims. -/

/-- Claim C1 counterexample: from a 1×1 terminal whose current attribute
state has inverse video on, `scroll_up` pushes a bottom row whose cell
carries the current (inverse) attributes — not the DEFAULT attributes the
claim asserts. -/
theorem C1_counterexample :
    exInverse.scroll_up = some exInverseAfter ∧
    exInverseAfter.grid.getLast? =
      some [⟨' ', TERM_FG, Color32.TRANSPARENT, true, false⟩] ∧
    (⟨' ', TERM_FG, Color32.TRANSPARENT, true, false⟩ : Cell) ≠ Cell.default := by
  decide

/-- Claim C1 (amended): for every state with a non-empty active grid,
`scroll_up` removes the active grid's top row, appends it (capped at
5000) to the scrollback exactly when the primary grid is active, pushes
at the bottom a blank row carrying the CURRENT attributes (not the
defaults), leaves the inactive grid, the dimensions and the cursor column
unchanged, and decrements the cursor row by one when it is above zero. -/
theorem C1_scroll_up_spec (s : TerminalState) (hg : s.grid ≠ []) :
    ∃ s', s.scroll_up = some s' ∧
      s'.grid = s.grid.tail ++ [blank_row s] ∧
      s'.history = (if s.is_alt_screen then s.history
                    else push_capped s.history (s.grid.headD [])) ∧
      (s.is_alt_screen = true → s'.primary_grid = s.primary_grid) ∧
      (s.is_alt_screen = false → s'.alt_grid = s.alt_grid) ∧
      s'.cursor_row = s.cursor_row - 1 ∧
      s'.cursor_col = s.cursor_col ∧
      s'.rows = s.rows ∧ s'.cols = s.cols ∧
      s'.is_alt_screen = s.is_alt_screen := by
  refine ⟨_, s.scroll_up_chr hg, ?_, rfl, ?_, ?_, rfl, rfl, rfl, rfl, rfl⟩
  · by_cases halt : s.is_alt_screen <;> simp [TerminalState.grid, halt]
  · intro halt
    simp [halt]
  · intro halt
    simp [halt]

/-- Claim C1 witness: the amended characterization applied to a fresh
2×2 terminal. -/
theorem C1_scroll_up_spec_witness :
    ∃ s', (TerminalState.new 2 2).scroll_up = some s' ∧
      s'.grid = (TerminalState.new 2 2).grid.tail ++
        [blank_row (TerminalState.new 2 2)] ∧
      s'.history = (if (TerminalState.new 2 2).is_alt_screen then
          (TerminalState.new 2 2).history
        else push_capped (TerminalState.new 2 2).history
          ((TerminalState.new 2 2).grid.headD [])) ∧
      ((TerminalState.new 2 2).is_alt_screen = true →
        s'.primary_grid = (TerminalState.new 2 2).primary_grid) ∧
      ((TerminalState.new 2 2).is_alt_screen = false →
        s'.alt_grid = (TerminalState.new 2 2).alt_grid) ∧
      s'.cursor_row = (TerminalState.new 2 2).cursor_row - 1 ∧
      s'.cursor_col = (TerminalState.new 2 2).cursor_col ∧
      s'.rows = (TerminalState.new 2 2).rows ∧
      s'.cols = (TerminalState.new 2 2).cols ∧
      s'.is_alt_screen = (TerminalState.new 2 2).is_alt_screen :=
  C1_scroll_up_spec (TerminalState.new 2 2) (by decide)

/-- Claim C2 counterexample: in a well-formed 1×1 terminal, printing an
ordinary character in the last column leaves the cursor column equal to
`cols`, outside the claimed range `[0, cols-1]`. -/
theorem C2_counterexample :
    WF exOne ∧ LogHandler.print 'a' exOne = some exOneAfterA ∧
    exOneAfterA.cursor_col = exOneAfterA.cols ∧
    ¬(exOneAfterA.cursor_col ≤ exOneAfterA.cols - 1) := by
  decide

/-- Claim C2 (amended): from a well-formed state, after any parser
callback the cursor row lies in `[0, rows-1]` and the cursor column lies
in `[0, cols]` — the column may equal `cols` (one past the last column)
right after printing in the last column. -/
theorem C2_cursor_bounds (a : Action) (s s' : TerminalState) (hw : WF s)
    (h : step a s = some s') :
    s'.cursor_row ≤ s'.rows - 1 ∧ s'.cursor_col ≤ s'.cols := by
  obtain ⟨s2, h2, hwf, _⟩ := wf_step a hw
  rw [h2] at h
  injection h with h
  subst h
  obtain ⟨w1, w2, w3, w4, w5, w6, w7, w8⟩ := hwf
  exact ⟨by omega, w6⟩

/-- Claim C2 witness: the cursor-bound theorem applied to printing in a
1×1 terminal. -/
theorem C2_cursor_bounds_witness :
    exOneAfterA.cursor_row ≤ exOneAfterA.rows - 1 ∧
    exOneAfterA.cursor_col ≤ exOneAfterA.cols :=
  C2_cursor_bounds (.print 'a') exOne exOneAfterA (by decide) (by decide)

/-- Claim C3 (code bug): from a fresh 2×2 terminal the sequence CSI 2;2H,
CSI ?1049h, resize to 1×2, CSI ?1049l leaves the restored cursor row (1)
outside the shrunken 1-row grid — shown by the first conjunct — and the
CSI X handler, which unlike CSI K and CSI P has no row bound guard, then
indexes `grid[row]` out of bounds: a panic, modelled as `none`, although
the spec requires the interpreter to be total over all byte sequences. -/
theorem C3_csi_X_panic :
    ((do
      let s1 ← step (.csi [[2], [2]] [] 'H') (TerminalState.new 2 2)
      let s2 ← step (.csi [[1049]] [0x3f] 'h') s1
      let s3 := s2.resize 1 2
      step (.csi [[1049]] [0x3f] 'l') s3 : Option TerminalState).map
        fun s4 => (s4.cursor_row, s4.rows)) = some (1, 1) ∧
    (do
      let s1 ← step (.csi [[2], [2]] [] 'H') (TerminalState.new 2 2)
      let s2 ← step (.csi [[1049]] [0x3f] 'h') s1
      let s3 := s2.resize 1 2
      let s4 ← step (.csi [[1049]] [0x3f] 'l') s3
      step (.csi [] [] 'X') s4 : Option TerminalState) = none := by
  decide

/-- Claim C4: entering the alternate screen (CSI ?1049h) and then leaving
it (CSI ?1049l) always succeeds, restores the cursor to the exact
(row, col) it held immediately before entry, and leaves the primary
grid's contents identical. -/
theorem C4_alt_screen_roundtrip (s : TerminalState) :
    ∃ s', (step (.csi [[1049]] [0x3f] 'h') s).bind
            (step (.csi [[1049]] [0x3f] 'l')) = some s' ∧
      s'.cursor_row = s.cursor_row ∧ s'.cursor_col = s.cursor_col ∧
      s'.primary_grid = s.primary_grid := by
  have h : (step (.csi [[1049]] [0x3f] 'h') s).bind
      (step (.csi [[1049]] [0x3f] 'l')) =
      some (LogHandler.mode_reset (LogHandler.mode_set s [1049]) [1049]) := by
    simp [step, LogHandler.csi_dispatch]
  refine ⟨_, h, ?_, ?_, ?_⟩ <;>
    simp [LogHandler.mode_set, LogHandler.mode_reset, p0]

/-- Claim C5: `scroll_up` keeps the scrollback length within the 5000
cap, and from a full (length-5000) primary-active history it evicts
exactly the oldest (front) row while appending the removed top row. -/
theorem C5_history_cap (s : TerminalState) (hg : s.grid ≠ [])
    (hlen : s.history.length ≤ 5000) :
    ∃ s', s.scroll_up = some s' ∧ s'.history.length ≤ 5000 ∧
      (s.is_alt_screen = false → s.history.length = 5000 →
        s'.history = s.history.tail ++ [s.grid.headD []]) := by
  refine ⟨_, s.scroll_up_chr hg, ?_, ?_⟩
  · show (if s.is_alt_screen then s.history
        else push_capped s.history (s.grid.headD [])).length ≤ 5000
    by_cases halt : s.is_alt_screen
    · rw [if_pos halt]
      exact hlen
    · rw [if_neg halt]
      exact push_capped_length _ _ hlen
  · intro halt hfull
    show (if s.is_alt_screen then s.history
        else push_capped s.history (s.grid.headD [])) =
      s.history.tail ++ [s.grid.headD []]
    rw [if_neg (by simp [halt])]
    exact push_capped_full _ _ hfull

/-- Claim C5 witness: the cap theorem applied to a terminal whose
scrollback already holds 5000 rows. -/
theorem C5_history_cap_witness :
    ∃ s', exHist5000.scroll_up = some s' ∧ s'.history.length ≤ 5000 ∧
      (exHist5000.is_alt_screen = false → exHist5000.history.length = 5000 →
        s'.history = exHist5000.history.tail ++ [exHist5000.grid.headD []]) :=
  C5_history_cap exHist5000 (by decide)
    (by rw [show exHist5000.history = List.replicate 5000 [Cell.default] from rfl,
          List.length_replicate])

/-- Claim C6: while the alternate grid is active, no parser callback
changes the scrollback: every processed byte leaves `history` unchanged. -/
theorem C6_alt_preserves_history (a : Action) (s s' : TerminalState)
    (halt : s.is_alt_screen = true) (h : step a s = some s') :
    s'.history = s.history := by
  cases a with
  | print c => exact LogHandler.print_history_alt halt h
  | execute b => exact LogHandler.execute_history_alt halt h
  | csi p i c => exact LogHandler.csi_dispatch_history h
  | other =>
    injection h with h
    rw [← h]

/-- Claim C6 witness: a linefeed in alt-screen mode scrolls the alternate
grid without touching the scrollback. -/
theorem C6_alt_preserves_history_witness :
    step (.execute 10) exAlt = some exAltAfter ∧
    exAltAfter.history = exAlt.history :=
  ⟨by decide, C6_alt_preserves_history (.execute 10) exAlt exAltAfter
    (by decide) (by decide)⟩

/-- Claim C7: `resize` is a no-op when either argument is zero;
otherwise both grids end up exactly `new_rows` rows of exactly `new_cols`
cells (rows appended or truncated at the bottom, rows default-padded or
truncated on the right, in closed form), and the cursor is clamped into
the new bounds. -/
theorem C7_resize_spec (s : TerminalState) (r c : Nat) :
    ((r = 0 ∨ c = 0) → s.resize r c = s) ∧
    (0 < r → 0 < c →
      (s.resize r c).rows = r ∧ (s.resize r c).cols = c ∧
      (s.resize r c).primary_grid =
        (s.primary_grid.take r ++ List.replicate (r - s.primary_grid.length)
          (List.replicate c Cell.default)).map
          (fun row => row.take c ++ List.replicate (c - row.length) Cell.default) ∧
      (s.resize r c).alt_grid =
        (s.alt_grid.take r ++ List.replicate (r - s.alt_grid.length)
          (List.replicate c Cell.default)).map
          (fun row => row.take c ++ List.replicate (c - row.length) Cell.default) ∧
      (s.resize r c).primary_grid.length = r ∧
      (∀ row ∈ (s.resize r c).primary_grid, row.length = c) ∧
      (s.resize r c).alt_grid.length = r ∧
      (∀ row ∈ (s.resize r c).alt_grid, row.length = c) ∧
      (s.resize r c).cursor_row = min s.cursor_row (r - 1) ∧
      (s.resize r c).cursor_col = min s.cursor_col (c - 1) ∧
      (s.resize r c).cursor_row < r ∧ (s.resize r c).cursor_col < c) := by
  constructor
  · intro h0
    unfold TerminalState.resize
    rw [if_pos h0]
  · intro hr hc
    have hno : ¬(r = 0 ∨ c = 0) := by omega
    have hpr := rect_resize_grid s.primary_grid r c
    have hal := rect_resize_grid s.alt_grid r c
    unfold TerminalState.resize
    rw [if_neg hno]
    refine ⟨rfl, rfl, resize_grid_eq _ _ _, resize_grid_eq _ _ _,
      hpr.1, hpr.2, hal.1, hal.2, rfl, rfl, ?_, ?_⟩
    · simp only
      omega
    · simp only
      omega

/-- Claim C7 witness: the resize characterization applied to growing a
2×2 terminal to 3×1. -/
theorem C7_resize_spec_witness :
    ((TerminalState.new 2 2).resize 3 1).rows = 3 ∧
    ((TerminalState.new 2 2).resize 3 1).cols = 1 ∧
    ((TerminalState.new 2 2).resize 3 1).primary_grid =
      ((TerminalState.new 2 2).primary_grid.take 3 ++
        List.replicate (3 - (TerminalState.new 2 2).primary_grid.length)
          (List.replicate 1 Cell.default)).map
        (fun row => row.take 1 ++ List.replicate (1 - row.length) Cell.default) ∧
    ((TerminalState.new 2 2).resize 3 1).alt_grid =
      ((TerminalState.new 2 2).alt_grid.take 3 ++
        List.replicate (3 - (TerminalState.new 2 2).alt_grid.length)
          (List.replicate 1 Cell.default)).map
        (fun row => row.take 1 ++ List.replicate (1 - row.length) Cell.default) ∧
    ((TerminalState.new 2 2).resize 3 1).primary_grid.length = 3 ∧
    (∀ row ∈ ((TerminalState.new 2 2).resize 3 1).primary_grid, row.length = 1) ∧
    ((TerminalState.new 2 2).resize 3 1).alt_grid.length = 3 ∧
    (∀ row ∈ ((TerminalState.new 2 2).resize 3 1).alt_grid, row.length = 1) ∧
    ((TerminalState.new 2 2).resize 3 1).cursor_row =
      min (TerminalState.new 2 2).cursor_row (3 - 1) ∧
    ((TerminalState.new 2 2).resize 3 1).cursor_col =
      min (TerminalState.new 2 2).cursor_col (1 - 1) ∧
    ((TerminalState.new 2 2).resize 3 1).cursor_row < 3 ∧
    ((TerminalState.new 2 2).resize 3 1).cursor_col < 1 :=
  (C7_resize_spec (TerminalState.new 2 2) 3 1).2 (by decide) (by decide)

/-- Claim C8: printing a narrow (code point at most 0x7f) character with
the cursor at column `c < cols-1` of a well-formed state writes exactly
one cell — the character with the current attributes at (row, c), via a
single `List.set` — and moves the cursor to column `c+1` on the same row,
leaving everything else unchanged. -/
theorem C8_print_narrow (s : TerminalState) (ch : Char) (hw : WF s)
    (hn : ch.toNat ≤ 0x7f) (hc : s.cursor_col < s.cols - 1) :
    ∃ line, s.grid.get? s.cursor_row = some line ∧
      LogHandler.print ch s = some
        { s.setGrid (s.grid.set s.cursor_row (line.set s.cursor_col
            ⟨ch, s.current_fg, s.current_bg, s.current_inverse, false⟩))
          with cursor_col := s.cursor_col + 1 } := by
  have hw' := hw
  obtain ⟨h1, h2, h3, h4, h5, h6, h7, h8⟩ := hw'
  obtain ⟨line, hget, hlen⟩ := rect_get (TerminalState.grid_rect hw) h5
  refine ⟨line, hget, ?_⟩
  have hwide : LogHandler.is_wide_char ch = false := by
    simp only [LogHandler.is_wide_char, decide_eq_false_iff_not, not_lt]
    omega
  have hwidth : LogHandler.char_width ch = 1 := by
    simp [LogHandler.char_width, hwide]
  unfold LogHandler.print
  rw [hwidth, hwide]
  unfold LogHandler.print_wrap
  rw [if_neg (by omega)]
  unfold LogHandler.print_scroll
  rw [if_neg (by omega)]
  rw [Option.some_bind]
  unfold LogHandler.print_write
  rw [if_pos h5]
  simp only [hget]
  rw [if_pos (by omega)]
  rw [if_neg (by simp)]

/-- Claim C8 witness: printing `a` at the start of a 1×4 terminal. -/
theorem C8_print_narrow_witness :
    ∃ line, exRow.grid.get? exRow.cursor_row = some line ∧
      LogHandler.print 'a' exRow = some
        { exRow.setGrid (exRow.grid.set exRow.cursor_row (line.set exRow.cursor_col
            ⟨'a', exRow.current_fg, exRow.current_bg, exRow.current_inverse, false⟩))
          with cursor_col := exRow.cursor_col + 1 } :=
  C8_print_narrow exRow 'a' (by decide) (by decide) (by decide)

/-- Claim C9: the input encoder sends `ESC [ A..D` for the arrow keys
with application-cursor mode off and `ESC O A..D` with it on, `CR` for
Enter, `DEL` for plain Backspace and `0x17` for Backspace with the
control modifier in both modes, and nothing for unrecognized keys. -/
theorem C9_encode_key_spec :
    (∀ ctrl : Bool,
      encode_key .arrowUp ctrl false = some [0x1b, 0x5b, 0x41] ∧
      encode_key .arrowDown ctrl false = some [0x1b, 0x5b, 0x42] ∧
      encode_key .arrowRight ctrl false = some [0x1b, 0x5b, 0x43] ∧
      encode_key .arrowLeft ctrl false = some [0x1b, 0x5b, 0x44] ∧
      encode_key .arrowUp ctrl true = some [0x1b, 0x4f, 0x41] ∧
      encode_key .arrowDown ctrl true = some [0x1b, 0x4f, 0x42] ∧
      encode_key .arrowRight ctrl true = some [0x1b, 0x4f, 0x43] ∧
      encode_key .arrowLeft ctrl true = some [0x1b, 0x4f, 0x44]) ∧
    (∀ ctrl app_mode : Bool, encode_key .enter ctrl app_mode = some [0x0d]) ∧
    (∀ app_mode : Bool, encode_key .backspace false app_mode = some [0x7f]) ∧
    (∀ app_mode : Bool, encode_key .backspace true app_mode = some [0x17]) ∧
    (∀ ctrl app_mode : Bool, encode_key .other ctrl app_mode = none) := by
  decide

/-- Claim C10 (implicit behavior, confirmed): the interpreter classifies
a character as double width exactly when its code point exceeds 0x7f, so
any non-ASCII character — here proved for all of them, witnessed below by
an accented Latin letter — occupies two columns (content cell plus
continuation cell) and advances the cursor by 2 whenever it fits. -/
theorem C10_print_wide (s : TerminalState) (ch : Char) (hw : WF s)
    (hwide : 0x7f < ch.toNat) (hfit : s.cursor_col + 2 ≤ s.cols) :
    (∀ x : Char, LogHandler.is_wide_char x = true ↔ 0x7f < x.toNat) ∧
    ∃ line, s.grid.get? s.cursor_row = some line ∧
      LogHandler.print ch s = some
        { s.setGrid (s.grid.set s.cursor_row
            ((line.set s.cursor_col
                ⟨ch, s.current_fg, s.current_bg, s.current_inverse, false⟩).set
              (s.cursor_col + 1)
                ⟨' ', s.current_fg, s.current_bg, s.current_inverse, true⟩))
          with cursor_col := s.cursor_col + 2 } := by
  have hw' := hw
  obtain ⟨h1, h2, h3, h4, h5, h6, h7, h8⟩ := hw'
  obtain ⟨line, hget, hlen⟩ := rect_get (TerminalState.grid_rect hw) h5
  refine ⟨fun x => by simp [LogHandler.is_wide_char], line, hget, ?_⟩
  have hwc : LogHandler.is_wide_char ch = true := by
    simpa [LogHandler.is_wide_char] using hwide
  have hwidth : LogHandler.char_width ch = 2 := by
    simp [LogHandler.char_width, hwc]
  unfold LogHandler.print
  rw [hwidth, hwc]
  unfold LogHandler.print_wrap
  rw [if_neg (by omega)]
  unfold LogHandler.print_scroll
  rw [if_neg (by omega)]
  rw [Option.some_bind]
  unfold LogHandler.print_write
  rw [if_pos h5]
  simp only [hget]
  rw [if_pos (by omega)]
  rw [if_pos (by simp only [Bool.true_and, decide_eq_true_eq]; omega)]
  rw [if_pos (by simp only [List.length_set]; omega)]

/-- Claim C10 witness: printing the accented letter `é` (code point
0xe9) at the start of a 1×4 terminal. -/
theorem C10_print_wide_witness :
    (∀ x : Char, LogHandler.is_wide_char x = true ↔ 0x7f < x.toNat) ∧
    ∃ line, exRow.grid.get? exRow.cursor_row = some line ∧
      LogHandler.print 'é' exRow = some
        { exRow.setGrid (exRow.grid.set exRow.cursor_row
            ((line.set exRow.cursor_col
                ⟨'é', exRow.current_fg, exRow.current_bg, exRow.current_inverse, false⟩).set
              (exRow.cursor_col + 1)
                ⟨' ', exRow.current_fg, exRow.current_bg, exRow.current_inverse, true⟩))
          with cursor_col := exRow.cursor_col + 2 } :=
  C10_print_wide exRow 'é' (by decide) (by decide) (by decide)

end Somnium
